import Mathlib

/-!
Shallow embedding of the redCorn distributed task manager (Go).

Source files embedded:
* the task registry (TaskScheduler / TaskSchedule: Register, Get, GetAll);
* the manager (NewDistributedTaskManager, addDistributedTask, AddScheduler,
  executeDistributedTask) from redCorn.go;
* the logger selection from log.go.

Go `func()` callback values are represented by an abstract payload type α,
with Option α standing for a possibly-nil Go function value (none = nil,
the zero value).  Machine state touched by the code (the cron job table,
the Redis lock cell) is passed explicitly.  Log calls become events in an
event list; dynamic fragments of log text (error values, durations) that
no claim depends on are elided from the rendered messages.
-/

namespace RedCorn

/-- TaskSchedule from the registry file: a callback value plus a cron
expression string.  `task = none` models a nil Go function value; the Go
zero value of the struct is `⟨none, ""⟩`. -/
structure TaskSchedule (α : Type) where
  task : Option α
  cron : String
deriving DecidableEq

/-- The zero value of TaskSchedule, returned by a failed Go map lookup. -/
def zeroTaskSchedule {α : Type} : TaskSchedule α := ⟨none, ""⟩

/-- TaskScheduler: the name-keyed registry.  The Go map
`map[string]TaskSchedule` is embedded as a lookup function. -/
structure TaskScheduler (α : Type) where
  tasks : String → Option (TaskSchedule α)

/-- NewTaskScheduler: empty registry. -/
def NewTaskScheduler {α : Type} : TaskScheduler α := ⟨fun _ => none⟩

/-- Register: `ts.tasks[name] = TaskSchedule{Task: task, Cron: cron}` —
unconditional map assignment, overwriting any existing entry. -/
def TaskScheduler.Register {α : Type} (ts : TaskScheduler α)
    (name : String) (c : String) (task : α) : TaskScheduler α :=
  ⟨fun n => if n = name then some ⟨some task, c⟩ else ts.tasks n⟩

/-- Get: Go two-valued map lookup — `(schedule, exists)`; a missing key
yields the zero value and false. -/
def TaskScheduler.Get {α : Type} (ts : TaskScheduler α) (name : String) :
    TaskSchedule α × Bool :=
  match ts.tasks name with
  | some s => (s, true)
  | none => (zeroTaskSchedule, false)

/-- A registry built by a sequence of Register calls on a fresh scheduler,
applied left to right. -/
def applyRegs {α : Type} : List (String × String × α) → TaskScheduler α → TaskScheduler α
  | [], ts => ts
  | (n, c, t) :: rest, ts => applyRegs rest (ts.Register n c t)

theorem applyRegs_not_mentioned {α : Type} (ops : List (String × String × α))
    (ts : TaskScheduler α) (n : String) (h : n ∉ ops.map (fun o => o.1)) :
    (applyRegs ops ts).tasks n = ts.tasks n := by
  induction ops generalizing ts with
  | nil => rfl
  | cons o rest ih =>
    simp only [List.map_cons, List.mem_cons] at h
    push_neg at h
    obtain ⟨o1, o2, o3⟩ := o
    simp only [applyRegs]
    rw [ih _ h.2]
    simp [TaskScheduler.Register, h.1]

/-- C6: Register followed by Get on the registered name returns exactly the
stored TaskSchedule with found = true; Get on a name never registered (in
any sequence of registrations on a fresh registry) returns found = false
and the zero-value TaskSchedule. -/
theorem register_then_get {α : Type} (ts : TaskScheduler α)
    (name : String) (c : String) (task : α)
    (ops : List (String × String × α)) (other : String)
    (h : other ∉ ops.map (fun o => o.1)) :
    (ts.Register name c task).Get name = (⟨some task, c⟩, true) ∧
    (applyRegs ops NewTaskScheduler).Get other = (zeroTaskSchedule, false) := by
  constructor
  · simp [TaskScheduler.Register, TaskScheduler.Get]
  · rw [TaskScheduler.Get, applyRegs_not_mentioned ops NewTaskScheduler other h]
    rfl

/-- C6 witness: a concrete registration and lookup, and a concrete miss. -/
theorem register_then_get_witness :
    ((NewTaskScheduler.Register "sync" "0 0 2 * * *" (37 : Nat)).Get "sync"
        = (⟨some 37, "0 0 2 * * *"⟩, true)) ∧
    ((applyRegs [("sync", "0 0 2 * * *", (37 : Nat))] NewTaskScheduler).Get "other"
        = (zeroTaskSchedule, false)) :=
  register_then_get NewTaskScheduler "sync" "0 0 2 * * *" 37
    [("sync", "0 0 2 * * *", 37)] "other" (by decide)

/-- C7: registering twice under the same name overwrites: Get returns the
second TaskSchedule with found = true.  Register returns a registry
unconditionally (its Go signature has no error result), so a duplicate is
never rejected. -/
theorem register_overwrites {α : Type} (ts : TaskScheduler α)
    (n : String) (e1 e2 : String) (c1 c2 : α) :
    ((ts.Register n e1 c1).Register n e2 c2).Get n = (⟨some c2, e2⟩, true) := by
  simp [TaskScheduler.Register, TaskScheduler.Get]

/-! ## Guarded execution wrapper (executeDistributedTask, redCorn.go) -/

/-- Result of `mutex.TryLock()` as consumed by executeDistributedTask:
`none` is a nil error (acquisition succeeded); `errFailed` is
redsync.ErrFailed (lock held elsewhere); `other` is any other operational
error such as an unreachable store. -/
inductive AcquireErr
  | errFailed
  | other (msg : String)
deriving DecidableEq

/-- The error component of `mutex.Unlock()`: redsync.ErrLockAlreadyExpired
or any other error value. -/
inductive UnlockErr
  | lockAlreadyExpired
  | other (msg : String)
deriving DecidableEq

/-- The pair returned by `mutex.Unlock()`: the ok flag and an optional
error. -/
structure UnlockResult where
  ok : Bool
  err : Option UnlockErr
deriving DecidableEq

/-- How one invocation of the raw `func()` callback ends: it either
returns normally or raises (a Go panic, the only way a `func()` can
signal failure). -/
inductive TaskOutcome
  | normal
  | raises
deriving DecidableEq

/-- Observable events of one guarded execution: leveled log calls (with
the message text from the source, dynamic fragments elided), the callback
invocation, and the attempt to release the lock. -/
inductive Event
  | logInfo (msg : String)
  | logWarn (msg : String)
  | logError (msg : String)
  | taskInvoked
  | unlockAttempt
deriving DecidableEq

/-- The deferred release block of executeDistributedTask:
`if ok, err := mutex.Unlock(); !ok || err != nil` then warn on
ErrLockAlreadyExpired and error otherwise, else log info. -/
def unlockEvents (taskName : String) (u : UnlockResult) : List Event :=
  Event.unlockAttempt ::
    (if !u.ok || u.err.isSome then
      (if u.err = some UnlockErr.lockAlreadyExpired then
        [Event.logWarn ("WARN!!! Task " ++ taskName ++ ": LockCfg already expired, skipping release")]
      else
        [Event.logError ("Task " ++ taskName ++ ": Failed to release lock: ")])
    else
      [Event.logInfo ("Task " ++ taskName ++ ": LockCfg released successfully")])

/-- executeDistributedTask from redCorn.go.  Inputs: the outcome of
`mutex.TryLock()`, the behaviour of the raw callback, and the outcome of
the deferred `mutex.Unlock()`.  Output: the event trace, and a flag that
is true when the invocation terminates by a raise propagating to its
caller (Go defers still run first, so the unlock events precede the
propagation).  On acquisition failure the function logs and returns
before registering the deferred release. -/
def executeDistributedTask (taskName : String) (acq : Option AcquireErr)
    (task : TaskOutcome) (u : UnlockResult) : List Event × Bool :=
  match acq with
  | some AcquireErr.errFailed =>
      ([Event.logInfo ("Task " ++ taskName ++ ": is running, skipping execution")], false)
  | some (AcquireErr.other e) =>
      ([Event.logError ("Task " ++ taskName ++ ": Failed to acquire lock, skipping execution, err:" ++ e)], false)
  | none =>
      match task with
      | TaskOutcome.normal =>
          (Event.logInfo ("Task " ++ taskName ++ ": LockCfg acquired, starting execution") ::
            Event.taskInvoked ::
            Event.logInfo ("Task " ++ taskName ++ ": Completed in ") ::
            unlockEvents taskName u, false)
      | TaskOutcome.raises =>
          (Event.logInfo ("Task " ++ taskName ++ ": LockCfg acquired, starting execution") ::
            Event.taskInvoked ::
            unlockEvents taskName u, true)

/-- C2: whenever the lease is acquired (TryLock returned nil), the wrapper
invokes the raw callback and afterwards attempts release, on every exit
path — normal completion and raise alike: the trace always splits as a
prefix containing the callback invocation followed by the release block,
so no path returns from a successful acquisition without an unlock
attempt. -/
theorem execute_releases_on_all_paths (taskName : String)
    (task : TaskOutcome) (u : UnlockResult) :
    Event.unlockAttempt ∈ (executeDistributedTask taskName none task u).1 ∧
    ∃ pre, (executeDistributedTask taskName none task u).1
        = pre ++ unlockEvents taskName u ∧ Event.taskInvoked ∈ pre := by
  cases task with
  | normal =>
    refine ⟨by simp [executeDistributedTask, unlockEvents], ?_⟩
    exact ⟨[Event.logInfo ("Task " ++ taskName ++ ": LockCfg acquired, starting execution"),
      Event.taskInvoked,
      Event.logInfo ("Task " ++ taskName ++ ": Completed in ")], rfl, by simp⟩
  | raises =>
    refine ⟨by simp [executeDistributedTask, unlockEvents], ?_⟩
    exact ⟨[Event.logInfo ("Task " ++ taskName ++ ": LockCfg acquired, starting execution"),
      Event.taskInvoked], rfl, by simp⟩

/-- C3: when acquisition fails the callback is never invoked and no
release is attempted; the trace is exactly one log line and the function
returns at once (no retry): info "is running, skipping execution" for the
contended case (redsync.ErrFailed), error for any other acquisition
error. -/
theorem execute_skips_on_acquire_failure (taskName : String)
    (e : AcquireErr) (task : TaskOutcome) (u : UnlockResult) :
    Event.taskInvoked ∉ (executeDistributedTask taskName (some e) task u).1 ∧
    Event.unlockAttempt ∉ (executeDistributedTask taskName (some e) task u).1 ∧
    (executeDistributedTask taskName (some AcquireErr.errFailed) task u).1
      = [Event.logInfo ("Task " ++ taskName ++ ": is running, skipping execution")] ∧
    (∀ m, (executeDistributedTask taskName (some (AcquireErr.other m)) task u).1
      = [Event.logError ("Task " ++ taskName ++ ": Failed to acquire lock, skipping execution, err:" ++ m)]) := by
  cases e <;> simp [executeDistributedTask]

/-- C4 counterexample: a raise from the raw callback is not confined to
the firing — with the lease acquired and the callback raising, the
invocation ends with the raise propagating out of the wrapper (there is
no recover in the source), contradicting the claim that every error
signalled by the callback is never propagated to any caller. -/
theorem execute_raise_propagates :
    (executeDistributedTask "job" none TaskOutcome.raises ⟨true, none⟩).2 = true := rfl

/-- C4 amended: acquisition failures and release failures are terminal to
the firing — logged, never propagated (the wrapper returns normally) —
but an error raised by the raw callback itself propagates out of the
wrapper: the invocation ends in a propagating raise exactly when the
lease was acquired and the callback raised. -/
theorem execute_error_containment (taskName : String)
    (acq : Option AcquireErr) (task : TaskOutcome) (u : UnlockResult) :
    (executeDistributedTask taskName acq task u).2 = true ↔
      (acq = none ∧ task = TaskOutcome.raises) := by
  cases acq with
  | none => cases task <;> simp [executeDistributedTask]
  | some e => cases e <;> cases task <;> simp [executeDistributedTask]

/-! ## Task registration (addDistributedTask, AddScheduler, redCorn.go)

The external cron engine is a capability: a schedule-expression checker
`parse : String → Option String` standing for `cron.AddFunc`, which
returns some error message exactly when the expression is malformed, and
a job table that grows by one entry on each successful AddFunc call. -/

/-- The cron engine job table: (name, schedule expression) pairs added so
far, in registration order. -/
structure CronState where
  jobs : List (String × String)
deriving DecidableEq

/-- addDistributedTask from redCorn.go: wrap the task, call
`cron.AddFunc(spec, wrappedTask)`, and on failure return the error
`failed to add cron task <name>: <err>` with the job table unchanged —
so a malformed expression is rejected synchronously and the task can
never fire.  On success the job is in the table and nil is returned.
(The Info log of the success path is elided; no claim depends on it.) -/
def addDistributedTask (parse : String → Option String) (st : CronState)
    (name s : String) : CronState × Option String :=
  match parse s with
  | some e => (st, some ("failed to add cron task " ++ name ++ ": " ++ e))
  | none => (⟨st.jobs ++ [(name, s)]⟩, none)

/-- AddScheduler from redCorn.go, over one iteration order of the
registry map (Go map iteration order is unspecified; the claim is stated
relative to the order in which the entries are visited): for each entry
call addDistributedTask and stop at the first failure, wrapping its error
as `failed to add task <name>: <err>`. -/
def AddScheduler {α : Type} (parse : String → Option String) (st : CronState) :
    List (String × TaskSchedule α) → CronState × Option String
  | [] => (st, none)
  | (name, schedule) :: rest =>
    match addDistributedTask parse st name schedule.cron with
    | (st2, some e) => (st2, some ("failed to add task " ++ name ++ ": " ++ e))
    | (st2, none) => AddScheduler parse st2 rest

theorem AddScheduler_all_ok {α : Type} (parse : String → Option String)
    (st : CronState) (entries : List (String × TaskSchedule α))
    (h : ∀ p ∈ entries, parse p.2.cron = none) :
    AddScheduler parse st entries
      = (⟨st.jobs ++ entries.map (fun p => (p.1, p.2.cron))⟩, none) := by
  induction entries generalizing st with
  | nil => simp [AddScheduler]
  | cons p rest ih =>
    obtain ⟨name, schedule⟩ := p
    have hp : parse schedule.cron = none := h (name, schedule) (by simp)
    simp only [AddScheduler, addDistributedTask, hp]
    rw [ih _ (fun q hq => h q (by simp [hq]))]
    simp

/-- C5: AddScheduler registers every entry it reaches and stops at the
first entry whose registration fails, returning an error naming that
entry; the entries visited before the failure are registered in the cron
job table and remain so, while the failing entry and every entry after it
are not registered.  When no entry fails, every entry is registered and
nil is returned. -/
theorem AddScheduler_fail_fast {α : Type} (parse : String → Option String)
    (st : CronState) (pre post : List (String × TaskSchedule α))
    (bn : String) (bs : TaskSchedule α) (e : String)
    (hpre : ∀ p ∈ pre, parse p.2.cron = none)
    (hbad : parse bs.cron = some e) :
    AddScheduler parse st (pre ++ (bn, bs) :: post)
      = (⟨st.jobs ++ pre.map (fun p => (p.1, p.2.cron))⟩,
         some ("failed to add task " ++ bn ++ ": " ++
           ("failed to add cron task " ++ bn ++ ": " ++ e))) ∧
    AddScheduler parse st pre
      = (⟨st.jobs ++ pre.map (fun p => (p.1, p.2.cron))⟩, none) := by
  refine ⟨?_, AddScheduler_all_ok parse st pre hpre⟩
  induction pre generalizing st with
  | nil => simp [AddScheduler, addDistributedTask, hbad]
  | cons p rest ih =>
    obtain ⟨name, schedule⟩ := p
    have hp : parse schedule.cron = none := hpre (name, schedule) (by simp)
    simp only [List.cons_append, AddScheduler, addDistributedTask, hp, List.append_eq]
    rw [ih _ (fun q hq => hpre q (by simp [hq]))]
    simp

/-- C5 witness: a three-entry batch whose middle entry is malformed — the
first entry is registered, the error names the middle entry, and the last
entry is not registered; the one-entry healthy batch registers fully. -/
theorem AddScheduler_fail_fast_witness :
    AddScheduler (fun s => if s = "bad" then some "boom" else none) ⟨[]⟩
        ([("a", (⟨some (0 : Nat), "okA"⟩ : TaskSchedule Nat))] ++
          ("b", (⟨some 1, "bad"⟩ : TaskSchedule Nat)) ::
          [("c", (⟨some 2, "okC"⟩ : TaskSchedule Nat))])
      = (⟨[("a", "okA")]⟩,
         some "failed to add task b: failed to add cron task b: boom") ∧
    AddScheduler (fun s => if s = "bad" then some "boom" else none) ⟨[]⟩
        [("a", (⟨some (0 : Nat), "okA"⟩ : TaskSchedule Nat))]
      = (⟨[("a", "okA")]⟩, none) :=
  AddScheduler_fail_fast (fun s => if s = "bad" then some "boom" else none)
    ⟨[]⟩ [("a", ⟨some 0, "okA"⟩)] [("c", ⟨some 2, "okC"⟩)] "b" ⟨some 1, "bad"⟩ "boom"
    (by intro p hp; simp at hp; simp [hp]) (by simp)

/-- C9: addDistributedTask (hence AddTask and each AddScheduler step)
surfaces a malformed schedule expression as an error at registration
time: the error is returned synchronously, the job table is unchanged so
the task can never fire; and for every well-formed expression it returns
no error and registers the job. -/
theorem addDistributedTask_registration_errors (parse : String → Option String)
    (st : CronState) (name s : String) :
    (∀ e, parse s = some e →
      addDistributedTask parse st name s
        = (st, some ("failed to add cron task " ++ name ++ ": " ++ e))) ∧
    (parse s = none →
      addDistributedTask parse st name s = (⟨st.jobs ++ [(name, s)]⟩, none)) := by
  constructor
  · intro e he; simp [addDistributedTask, he]
  · intro h0; simp [addDistributedTask, h0]

/-- C9 witness: a malformed expression rejected with the table unchanged,
and a well-formed expression accepted. -/
theorem addDistributedTask_registration_errors_witness :
    (addDistributedTask (fun s => if s = "bad" then some "boom" else none)
        ⟨[]⟩ "job" "bad"
      = (⟨[]⟩, some "failed to add cron task job: boom")) ∧
    (addDistributedTask (fun s => if s = "bad" then some "boom" else none)
        ⟨[]⟩ "job" "0 0 2 * * *"
      = (⟨[("job", "0 0 2 * * *")]⟩, none)) :=
  ⟨(addDistributedTask_registration_errors (fun s => if s = "bad" then some "boom" else none)
      ⟨[]⟩ "job" "bad").1 "boom" (by simp),
   (addDistributedTask_registration_errors (fun s => if s = "bad" then some "boom" else none)
      ⟨[]⟩ "job" "0 0 2 * * *").2 (by simp)⟩

/-! ## Manager construction (NewDistributedTaskManager, redCorn.go; logger
selection per log.go) -/

/-- The logger capability held by the manager: either the built-in
default built by NewDefaultLogger, or a caller-supplied logger (identified
abstractly). -/
inductive Logger
  | defaultLogger
  | custom (id : Nat)
deriving DecidableEq

/-- NewDefaultLogger from log.go: builds the built-in default logger. -/
def NewDefaultLogger : Logger := Logger.defaultLogger

/-- LockCfg from redCorn.go: lease TTL (expiry) and the lock key
namespace string. -/
structure LockCfg where
  expiry : Nat
  pref : String
deriving DecidableEq

/-- Cfg from redCorn.go; the optional Logger field: `none` models a nil
Go interface value (no logger supplied).  Redis connection options are
not consulted by any embedded operation and are elided. -/
structure Cfg where
  lockCfg : LockCfg
  logger : Option Logger
deriving DecidableEq

/-- Outcome of one `client.Ping(ctx).Err()` call against the lock
store. -/
inductive PingResult
  | ok
  | err (msg : String)
deriving DecidableEq

/-- The manager record as far as the embedded operations read it: the
configuration and the chosen logger. -/
structure DistributedTaskManager where
  cfg : Cfg
  log : Logger
deriving DecidableEq

/-- NewDistributedTaskManager from redCorn.go: choose the logger (default
when the config supplies none), issue exactly one Ping against the store,
and fail outright — returning an error and no manager — when the Ping
fails.  The second component counts the Ping calls issued inside the
constructor: it is always exactly 1, i.e. the connectivity check is never
retried within the call. -/
def NewDistributedTaskManager (ping : PingResult) (cfg : Cfg) :
    Except String DistributedTaskManager × Nat :=
  match ping with
  | PingResult.err m => (Except.error ("failed to connect to Redis: " ++ m), 1)
  | PingResult.ok =>
      (Except.ok ⟨cfg, match cfg.logger with
        | none => NewDefaultLogger
        | some l => l⟩, 1)

/-- C8: construction performs the connectivity check; when the store is
unreachable it fails outright with an error and no manager, after exactly
one (non-retried) Ping; when the store answers, a manager is returned. -/
theorem newManager_connectivity (cfg : Cfg) (m : String) :
    NewDistributedTaskManager (PingResult.err m) cfg
      = (Except.error ("failed to connect to Redis: " ++ m), 1) ∧
    ∃ dtm, NewDistributedTaskManager PingResult.ok cfg = (Except.ok dtm, 1) := by
  exact ⟨rfl, ⟨_, rfl⟩⟩

/-- C10: with a reachable store, a nil Logger in the config is replaced by
the built-in default logger and construction still succeeds; a supplied
logger is installed unchanged. -/
theorem newManager_logger_default (cfg : Cfg) :
    (cfg.logger = none →
      NewDistributedTaskManager PingResult.ok cfg
        = (Except.ok ⟨cfg, Logger.defaultLogger⟩, 1)) ∧
    (∀ l, cfg.logger = some l →
      NewDistributedTaskManager PingResult.ok cfg = (Except.ok ⟨cfg, l⟩, 1)) := by
  constructor
  · intro h; simp [NewDistributedTaskManager, h, NewDefaultLogger]
  · intro l h; simp [NewDistributedTaskManager, h]

/-- C10 witness: a config with no logger gets the default; a config with
a custom logger keeps it. -/
theorem newManager_logger_default_witness :
    NewDistributedTaskManager PingResult.ok ⟨⟨30, "app:lock:"⟩, none⟩
      = (Except.ok ⟨⟨⟨30, "app:lock:"⟩, none⟩, Logger.defaultLogger⟩, 1) ∧
    NewDistributedTaskManager PingResult.ok ⟨⟨30, "app:lock:"⟩, some (Logger.custom 5)⟩
      = (Except.ok ⟨⟨⟨30, "app:lock:"⟩, some (Logger.custom 5)⟩, Logger.custom 5⟩, 1) :=
  ⟨(newManager_logger_default ⟨⟨30, "app:lock:"⟩, none⟩).1 rfl,
   (newManager_logger_default ⟨⟨30, "app:lock:"⟩, some (Logger.custom 5)⟩).2
     (Logger.custom 5) rfl⟩

/-! ## Distributed mutex acquire (modelled from the spec) -/

/-- Modelled from the spec: the acquire step of the distributed mutex
(`mutex.TryLock()`), whose algorithm lives in the external redsync
library, not in this repository.  Per spec section 4.2 the deployment here
is the degenerate N = 1 replica configuration (one Redis client), so an
acquire is a single atomic set-if-absent on the lock key: it succeeds and
installs the token of the caller exactly when the key is absent, and leaves
the store unchanged reporting contention otherwise.  The store cell holds
the token of the current live, unexpired lease for the resource key, or
none. -/
def tryLock (store : Option Nat) (token : Nat) : Option Nat × Bool :=
  match store with
  | none => (some token, true)
  | some t => (some t, false)

/-- Two concurrent guarded invocations for the same resource key against
the same (initially free) store: each acquire is one atomic store step,
so an interleaving is an order of the two steps.  Returns (success of
invocation 1, success of invocation 2, final store). -/
def runTwo (firstIsOne : Bool) (t1 t2 : Nat) : Bool × Bool × Option Nat :=
  if firstIsOne then
    let r1 := tryLock none t1
    let r2 := tryLock r1.1 t2
    (r1.2, r2.2, r2.1)
  else
    let r2 := tryLock none t2
    let r1 := tryLock r2.1 t1
    (r1.2, r2.2, r1.1)

/-- Translate an acquire outcome into the TryLock result fed to
executeDistributedTask: success is a nil error, contention is
redsync.ErrFailed. -/
def guardedOutcome (acquired : Bool) : Option AcquireErr :=
  if acquired then none else some AcquireErr.errFailed

/-- C1: for either interleaving of two concurrent guarded invocations on
the same resource key against the same initially-free lock store, exactly
one acquires — its guarded execution invokes the callback while the other
logs and skips — and afterwards the store holds exactly one live lease,
bearing the token of the winner. -/
theorem acquire_mutual_exclusion (firstIsOne : Bool) (t1 t2 : Nat)
    (n : String) (body1 body2 : TaskOutcome) (u1 u2 : UnlockResult) :
    (((runTwo firstIsOne t1 t2).1 = true ∧ (runTwo firstIsOne t1 t2).2.1 = false) ∨
     ((runTwo firstIsOne t1 t2).1 = false ∧ (runTwo firstIsOne t1 t2).2.1 = true)) ∧
    ((Event.taskInvoked ∈
        (executeDistributedTask n (guardedOutcome (runTwo firstIsOne t1 t2).1) body1 u1).1) ↔
      Event.taskInvoked ∉
        (executeDistributedTask n (guardedOutcome (runTwo firstIsOne t1 t2).2.1) body2 u2).1) ∧
    (runTwo firstIsOne t1 t2).2.2
      = some (if firstIsOne then t1 else t2) := by
  cases firstIsOne <;>
    cases body1 <;> cases body2 <;>
      simp [runTwo, tryLock, guardedOutcome, executeDistributedTask]

end RedCorn
